import Mathlib

/-!
Verification of the resource-management core of the k8s device plugin
(`internal/rm/allocate.go`, `internal/rm/nvml.go` and the supervisor loop).

The Go code is embedded shallowly: pure functions become Lean functions,
fallible calls return `Except`/`Option`, machine integers are `Nat` with an
explicit `% 2 ^ 64` where the source computes in `uint64`, and the single
threaded supervisor loop becomes an explicit state machine.  Helper types of
the repository that are not part of the two embedded files (the `Devices`
collection, the annotated-id helpers, `uintPtr`) are reconstructed from the
specification's description and flagged as such in their doc comments.
-/

/-- A device of the catalog snapshot.  Only the fields the allocation engine
inspects are kept: the stable unique `id` and whether the device is a
MIG partition (`isMig`). -/
structure Device where
  id : String
  isMig : Bool
deriving DecidableEq

/-- Modelled from the spec: `Devices.Subset` (subset-by-id) of the repository's
`Devices` collection, which is outside `src/`.  The DeviceSet is an
order-preserving collection keyed by id; the subset keeps the devices whose id
occurs in `ids`. -/
def Devices.Subset (ds : List Device) (ids : List String) : List Device :=
  ds.filter (fun d => decide (d.id ∈ ids))

/-- Modelled from the spec: `Devices.Difference` (set difference by id) of the
repository's `Devices` collection, which is outside `src/`. -/
def Devices.Difference (ds other : List Device) : List Device :=
  ds.filter (fun d => decide (d.id ∉ other.map Device.id))

/-- Modelled from the spec: `Devices.GetIDs` (id projection) of the
repository's `Devices` collection, which is outside `src/`. -/
def Devices.GetIDs (ds : List Device) : List String :=
  ds.map Device.id

/-- Modelled from the spec: `Devices.ContainsMigDevices` of the repository's
`Devices` collection, which is outside `src/`: whether the DeviceSet contains
any partition (MIG) device. -/
def Devices.ContainsMigDevices (ds : List Device) : Bool :=
  ds.any (fun d => d.isMig)

/-- Modelled from the spec: an element of the allocation request's
`available` list — a device id optionally paired with an orchestrator-supplied
qualifier string (empty qualifier = no qualifier).  The `AnnotatedID` type of
the repository is outside `src/`. -/
structure AnnotatedID where
  id : String
  qualifier : String
deriving DecidableEq

/-- Modelled from the spec: whether one element carries a non-empty
qualifier. -/
def AnnotatedID.hasQualifier (a : AnnotatedID) : Bool :=
  !(a.qualifier == "")

/-- Modelled from the spec: whether any element of the list carries a
qualifier (the repository's `AnnotatedIDs.AnyHasAnnotations`, outside
`src/`). -/
def anyHasQualifier (as : List AnnotatedID) : Bool :=
  as.any AnnotatedID.hasQualifier

/-- The ids of the remainder computed by `alloc` (`allocate.go` line 54):
`r.devices.Subset(available).Difference(r.devices.Subset(required)).GetIDs()`.
`fleet` is the current DeviceSet `r.devices`. -/
def allocRemainder (fleet : List Device) (available required : List String) : List String :=
  Devices.GetIDs (Devices.Difference (Devices.Subset fleet available) (Devices.Subset fleet required))

/-- The candidate list built by `alloc` (`allocate.go` line 55):
`devices := append(required, remainder...)`. -/
def allocCandidates (fleet : List Device) (available required : List String) : List String :=
  required ++ allocRemainder fleet available required

/-- `alloc` (`allocate.go` lines 53–60), the fallback allocation policy:
fails when the candidate list is shorter than `size`, otherwise returns its
first `size` entries. -/
def alloc (fleet : List Device) (available required : List String) (size : Nat) :
    Except String (List String) :=
  let devices := allocCandidates fleet available required
  if devices.length < size then
    Except.error "not enough available devices to satisfy allocation"
  else
    Except.ok (devices.take size)

/-- Which of the two policies `getPreferredAllocation` runs. -/
inductive AllocPolicy where
  | topologyAware
  | fallback
deriving DecidableEq

/-- Policy selection of `getPreferredAllocation` (`allocate.go` lines 64–73):
the topology-aware (aligned) policy is used exactly when the current DeviceSet
has no MIG devices and no element of `available` carries a qualifier;
otherwise the fallback `alloc` runs.  `required` and `size` are part of the
request but do not influence the selection. -/
def getPreferredAllocationPolicy (fleet : List Device) (available : List AnnotatedID)
    (_required : List String) (_size : Nat) : AllocPolicy :=
  if !(Devices.ContainsMigDevices fleet) && !(anyHasQualifier available) then
    AllocPolicy.topologyAware
  else
    AllocPolicy.fallback

/-- Number of distinct ids in `available ∪ required`, the quantity the spec's
failure condition for the fallback policy is phrased with. -/
def idUnionCard (available required : List String) : Nat :=
  ((available ++ required).dedup).length

/-- The MIG profile name computed by `getMigProfile` (`nvml.go` lines 247–273)
from the device attributes: `g` = `GpuInstanceSliceCount`,
`c` = `ComputeInstanceSliceCount`, `memMB` = `MemorySizeMB`.  The source
computes `gb := ((attr.MemorySizeMB + 1024 - 1) / 1024)` in `uint64`
arithmetic, hence the explicit `% 2 ^ 64`. -/
def getMigProfile (g c memMB : Nat) : String :=
  let gb := ((memMB + 1024 - 1) % 2 ^ 64) / 1024
  if g = c then
    Nat.repr g ++ "g." ++ Nat.repr gb ++ "gb"
  else
    Nat.repr c ++ "c." ++ Nat.repr g ++ "g." ++ Nat.repr gb ++ "gb"

/-- Outcome of one `GetGpuInstanceProfileInfo(i)` query in the loop of
`walkMigProfiles` (`nvml.go` lines 139–150): the two tolerated error codes,
any other (fatal) error, or the profile info `(SliceCount, MemorySizeMB)`. -/
inductive GIProfileResult where
  | notSupported
  | invalidArgument
  | otherError
  | info (sliceCount : Nat) (memorySizeMB : Nat)
deriving DecidableEq

/-- One GPU as seen by `walkMigProfiles`: whether `isMigCapable` reported
true, and the sequence of per-index profile query outcomes. -/
structure GPUProfiles where
  migCapable : Bool
  results : List GIProfileResult
deriving DecidableEq

/-- The inner loop of `walkMigProfiles` (`nvml.go` lines 139–165) on one GPU:
for every successful profile query it computes
`p := fmt.Sprintf("%dg.%dgb", g, ((MemorySizeMB + 1024 - 1) / 1024))`
(in `uint64` arithmetic), skips `p` when already `visited`, otherwise hands
it to the callback and marks it visited.  Returns the strings handed to the
callback in order, together with the final visited set. -/
def walkGPUProfiles : List GIProfileResult → List String → Except String (List String × List String)
  | [], visited => Except.ok ([], visited)
  | GIProfileResult.notSupported :: rest, visited => walkGPUProfiles rest visited
  | GIProfileResult.invalidArgument :: rest, visited => walkGPUProfiles rest visited
  | GIProfileResult.otherError :: _, _ =>
      Except.error "error getting GPU instance profile info"
  | GIProfileResult.info g memMB :: rest, visited =>
      let p := Nat.repr g ++ "g." ++ Nat.repr (((memMB + 1024 - 1) % 2 ^ 64) / 1024) ++ "gb"
      if p ∈ visited then
        walkGPUProfiles rest visited
      else
        match walkGPUProfiles rest (p :: visited) with
        | Except.ok (ps, vis) => Except.ok (p :: ps, vis)
        | Except.error e => Except.error e

/-- The outer loop of `walkMigProfiles` (`nvml.go` lines 129–168) over all
GPUs: GPUs that are not MIG capable are skipped; the `visited` map is created
once and shared across all GPUs, so deduplication is fleet-wide. -/
def walkMigProfilesAux : List GPUProfiles → List String → Except String (List String)
  | [], _ => Except.ok []
  | gpu :: rest, visited =>
      if gpu.migCapable then
        match walkGPUProfiles gpu.results visited with
        | Except.error e => Except.error e
        | Except.ok (ps, vis) =>
            match walkMigProfilesAux rest vis with
            | Except.error e => Except.error e
            | Except.ok ps2 => Except.ok (ps ++ ps2)
      else
        walkMigProfilesAux rest visited

/-- `walkMigProfiles` (`nvml.go` lines 129–168): the fleet-wide walk of all
possible MIG profiles, returning the profile strings handed to the callback,
starting from an empty visited map. -/
def walkMigProfiles (gpus : List GPUProfiles) : Except String (List String) :=
  walkMigProfilesAux gpus []

/-- ASCII lower-casing of one character, the effect of Go's
`strings.ToLower` on the characters a PCI bus id consists of. -/
def charToLower (ch : Char) : Char :=
  if 'A' ≤ ch ∧ ch ≤ 'Z' then Char.ofNat (ch.toNat + 32) else ch

/-- Go's `strings.ToLower` restricted to ASCII, applied character-wise. -/
def goToLower (s : String) : String :=
  String.mk (s.data.map charToLower)

/-- Whether the character list `s` starts with the character list `p`. -/
def listStartsWith : List Char → List Char → Bool
  | _, [] => true
  | [], _ :: _ => false
  | a :: rest, b :: pre => a == b && listStartsWith rest pre

/-- Go's `strings.TrimPrefix s p`: removes `p` from the front of `s` when it
is a leading substring, otherwise returns `s` unchanged. -/
def goTrimLeading (s p : String) : String :=
  if listStartsWith s.data p.data then String.mk (s.data.drop p.data.length) else s

/-- The bus-address key computed by `getNumaNode` (`nvml.go` line 324):
`strings.ToLower(strings.TrimPrefix(busId, "0000"))` where `busId` is the
NUL-trimmed string form of `info.BusId`. -/
def numaBusID (busId : String) : String :=
  goToLower (goTrimLeading busId "0000")

/-- The PCI-topology file path used by `getNumaNode` (`nvml.go` line 326). -/
def numaNodePath (busId : String) : String :=
  "/sys/bus/pci/devices/" ++ numaBusID busId ++ "/numa_node"

/-- The ASCII white-space characters Go's `strings`/`bytes.TrimSpace` strips
(restriction of `unicode.IsSpace` to ASCII). -/
def goIsSpace (ch : Char) : Bool :=
  ch == ' ' || ch == '\t' || ch == '\n' || ch == '\x0b' || ch == '\x0c' || ch == '\r'

/-- Go's `bytes.TrimSpace` on the file contents: white space removed from
both ends. -/
def goTrimSpace (s : String) : String :=
  String.mk (((s.data.dropWhile goIsSpace).reverse.dropWhile goIsSpace).reverse)

/-- Decimal value of one digit character, `none` for a non-digit. -/
def decDigit (ch : Char) : Option Nat :=
  if '0' ≤ ch ∧ ch ≤ '9' then some (ch.toNat - '0'.toNat) else none

/-- Accumulating decimal parse of a digit string; any non-digit poisons the
result. -/
def decDigitsValAux : Option Nat → List Char → Option Nat
  | acc, [] => acc
  | some v, ch :: rest =>
      match decDigit ch with
      | some d => decDigitsValAux (some (v * 10 + d)) rest
      | none => none
  | none, _ :: _ => none

/-- Value of a non-empty all-digit character list, `none` otherwise. -/
def decDigitsVal (cs : List Char) : Option Nat :=
  if cs.isEmpty then none else decDigitsValAux (some 0) cs

/-- Go's `strconv.ParseInt(s, 10, 8)`: an optional sign followed by at least
one decimal digit, and the value must fit in `int8` (range `[-128, 127]`);
everything else is an error (`none`). -/
def goParseInt8 (s : String) : Option Int :=
  match s.data with
  | [] => none
  | '+' :: rest =>
      match decDigitsVal rest with
      | some v => if v ≤ 127 then some (Int.ofNat v) else none
      | none => none
  | '-' :: rest =>
      match decDigitsVal rest with
      | some v => if v ≤ 128 then some (-(Int.ofNat v)) else none
      | none => none
  | cs =>
      match decDigitsVal cs with
      | some v => if v ≤ 127 then some (Int.ofNat v) else none
      | none => none

/-- Outcome of the `os.ReadFile` call in `getNumaNode` (`nvml.go` line 326).
The model distinguishes the file being absent from a read failure on a
present file; the source code receives only `(bytes, err)` and cannot. -/
inductive ReadResult where
  | missing
  | unreadable
  | content (b : String)
deriving DecidableEq

/-- The tail of `getNumaNode` (`nvml.go` lines 326–343) after the bus-address
key is formed, as a function of the file-read outcome: any read error returns
`(nil, nil)` (NUMA affinity absent, no error); a parse failure of the read
content is a hard error; a negative parsed value is reported as absent. -/
def getNumaNode (read : ReadResult) : Except String (Option Int) :=
  match read with
  | ReadResult.missing => Except.ok none
  | ReadResult.unreadable => Except.ok none
  | ReadResult.content b =>
      match goParseInt8 (goTrimSpace b) with
      | none => Except.error "eror parsing value for NUMA node"
      | some node => if node < 0 then Except.ok none else Except.ok (some node)

/-- The NVML device handle behind an event, with the two queries
`nvmlWaitForEvent` performs on it (`nvml.go` lines 69–77). -/
structure RawDevice where
  getUUID : Except String String
  isMigDeviceHandle : Except String Bool

/-- The raw `nvml.EventData` returned by `es.Wait` (`nvml.go` line 64):
device handle, instance ids (`uint32` values), event type and payload. -/
structure RawEventData where
  device : RawDevice
  gpuInstanceId : Nat
  computeInstanceId : Nat
  eventType : Nat
  eventData : Nat

/-- The decoded `nvmlEvent` record (`nvml.go` lines 40–46): pointer fields
become `Option`. -/
structure NvmlEvent where
  UUID : Option String
  GpuInstanceID : Option Nat
  ComputeInstanceID : Option Nat
  Etype : Nat
  Edata : Nat
deriving DecidableEq

/-- Modelled from the spec: the repository's `uintPtr` helper (outside
`src/`) that turns a `uint32` into an optional value, mapping the NVML
absent-sentinel `0xFFFFFFFF` to an explicit absence marker so that absence is
never confused with a real id 0. -/
def uintPtr (c : Nat) : Option Nat :=
  if c = 0xFFFFFFFF then none else some c

/-- `nvmlWaitForEvent` (`nvml.go` lines 63–93) as a function of the `es.Wait`
outcome: any failing step is surfaced as an error; on success, when the
reporting handle is not a MIG handle both instance ids are overwritten with
the `0xFFFFFFFF` sentinel before conversion, so they decode to absent. -/
def nvmlWaitForEvent (wait : Except String RawEventData) : Except String NvmlEvent :=
  match wait with
  | Except.error e => Except.error e
  | Except.ok data =>
      match data.device.getUUID with
      | Except.error e => Except.error e
      | Except.ok uuid =>
          match data.device.isMigDeviceHandle with
          | Except.error e => Except.error e
          | Except.ok isMig =>
              let gi := if isMig then data.gpuInstanceId else 0xFFFFFFFF
              let ci := if isMig then data.computeInstanceId else 0xFFFFFFFF
              Except.ok { UUID := some uuid, GpuInstanceID := uintPtr gi,
                          ComputeInstanceID := uintPtr ci,
                          Etype := data.eventType, Edata := data.eventData }

/-- One serving endpoint as the supervisor sees it (`NvidiaDevicePlugin` is
outside the embedded files): how many devices it serves and whether its
`Start()` call would succeed this cycle. -/
structure PluginSpec where
  devices : Nat
  startOk : Bool
deriving DecidableEq

/-- Observable lifecycle calls the supervisor makes on endpoint handles. -/
inductive PluginAction where
  | startP (p : PluginSpec)
  | stopP (p : PluginSpec)
deriving DecidableEq

/-- The plugin-starting loop of `startPlugins` (`nvml.go` supervisor part,
lines 711–728): endpoints with no devices are skipped; each remaining
endpoint is started in order; the first `Start` failure aborts the loop and
requests a restart.  Returns the restart flag and the `Start` calls made. -/
def startPluginsLoop : List PluginSpec → Bool × List PluginAction
  | [] => (false, [])
  | p :: rest =>
      if p.devices = 0 then startPluginsLoop rest
      else if p.startOk then
        ((startPluginsLoop rest).1, PluginAction.startP p :: (startPluginsLoop rest).2)
      else
        (true, [PluginAction.startP p])

/-- The fixed backoff of the supervisor: `time.After(30 * time.Second)`. -/
def backoffSeconds : Nat := 30

/-- Supervisor state across cycles of the `restart:` loop in `start`
(supervisor part of `nvml.go`): whether at least one cycle ran
(`restarting`), the pending backoff timer, and the endpoint handles owned by
the current cycle (`startPlugins` returns the full handle list even when one
of them failed to start). -/
structure SupervisorState where
  restarting : Bool
  restartTimeout : Option Nat
  plugins : List PluginSpec
deriving DecidableEq

/-- The state before the first cycle (`restarting = false`, no timer, no
plugins). -/
def initialSupervisorState : SupervisorState :=
  { restarting := false, restartTimeout := none, plugins := [] }

/-- One pass through the `restart:` label of `start`: when re-entering, all
plugins of the previous cycle are stopped first; then the new endpoint set is
started; a start failure arms the fixed 30-second backoff timer.  Returns the
new state and the lifecycle calls of the cycle in order. -/
def restartCycle (s : SupervisorState) (newPlugins : List PluginSpec) :
    SupervisorState × List PluginAction :=
  let stopActions := if s.restarting then s.plugins.map PluginAction.stopP else []
  let r := startPluginsLoop newPlugins
  ({ restarting := true,
     restartTimeout := if r.1 then some backoffSeconds else s.restartTimeout,
     plugins := newPlugins },
   stopActions ++ r.2)

/-- The asynchronous triggers of the supervisor's select loop.  Restart
triggers carry the endpoint set the next cycle would build. -/
inductive SupervisorEvent where
  | timerFire (newPlugins : List PluginSpec)
  | kubeletSocketCreate (newPlugins : List PluginSpec)
  | sighup (newPlugins : List PluginSpec)
  | terminate
deriving DecidableEq

/-- One iteration of the supervisor's select loop: a fired timer (only
possible while one is armed, and consumed by firing), a kubelet-socket
creation or a SIGHUP re-enter the `restart:` cycle; a termination signal
stops every owned plugin and exits. -/
def supervisorStep (s : SupervisorState) (e : SupervisorEvent) :
    SupervisorState × List PluginAction :=
  match e with
  | SupervisorEvent.timerFire newPlugins =>
      if s.restartTimeout.isSome then
        restartCycle { s with restartTimeout := none } newPlugins
      else (s, [])
  | SupervisorEvent.kubeletSocketCreate newPlugins => restartCycle s newPlugins
  | SupervisorEvent.sighup newPlugins => restartCycle s newPlugins
  | SupervisorEvent.terminate => (s, s.plugins.map PluginAction.stopP)

theorem map_filter_comp {α β : Type} (f : α → β) (p : β → Bool) (l : List α) :
    (l.filter (fun x => p (f x))).map f = (l.map f).filter p := by
  induction l with
  | nil => rfl
  | cons a t ih =>
      simp only [List.map_cons, List.filter_cons]
      cases h : p (f a) <;> simp [h, ih]

theorem length_filter_mem {α : Type} [DecidableEq α] :
    ∀ (l s : List α), l.Nodup → s.Nodup → (∀ x ∈ s, x ∈ l) →
      (l.filter (fun x => decide (x ∈ s))).length = s.length := by
  intro l
  induction l with
  | nil =>
      intro s _ _ hsub
      cases s with
      | nil => rfl
      | cons a t => exact absurd (hsub a (by simp)) (by simp)
  | cons a t ih =>
      intro s hl hs hsub
      rw [List.nodup_cons] at hl
      by_cases ha : a ∈ s
      · rw [List.filter_cons_of_pos (by simpa using ha)]
        have hcongr : t.filter (fun x => decide (x ∈ s)) =
            t.filter (fun x => decide (x ∈ s.erase a)) := by
          apply List.filter_congr
          intro x hx
          have hxa : x ≠ a := fun hexa => hl.1 (hexa ▸ hx)
          simp [List.mem_erase_of_ne hxa]
        have hsubt : ∀ x ∈ s.erase a, x ∈ t := by
          intro x hx
          have hxs : x ∈ s := (hs.mem_erase_iff.mp hx).2
          have hxa : x ≠ a := (hs.mem_erase_iff.mp hx).1
          rcases List.mem_cons.mp (hsub x hxs) with h | h
          · exact absurd h hxa
          · exact h
        rw [hcongr, List.length_cons, ih (s.erase a) hl.2 (hs.erase a) hsubt,
            List.length_erase_of_mem ha]
        have : 0 < s.length := List.length_pos_of_mem ha
        omega
      · rw [List.filter_cons_of_neg (by simpa using ha)]
        have hsubt : ∀ x ∈ s, x ∈ t := by
          intro x hx
          rcases List.mem_cons.mp (hsub x hx) with h | h
          · exact absurd (h ▸ hx) ha
          · exact h
        exact ih s hl.2 hs hsubt

theorem length_filter_split {α : Type} (p : α → Bool) (l : List α) :
    (l.filter p).length + (l.filter (fun x => !(p x))).length = l.length := by
  induction l with
  | nil => rfl
  | cons a t ih =>
      simp only [List.filter_cons]
      cases h : p a <;> simp [h] <;> omega

theorem mem_Subset_ids (fleet : List Device) (ids : List String) (x : String) :
    x ∈ (Devices.Subset fleet ids).map Device.id ↔
      x ∈ ids ∧ x ∈ fleet.map Device.id := by
  simp only [Devices.Subset, List.mem_map, List.mem_filter, decide_eq_true_eq]
  constructor
  · rintro ⟨d, ⟨hdf, hdi⟩, rfl⟩
    exact ⟨hdi, d, hdf, rfl⟩
  · rintro ⟨hxi, d, hdf, rfl⟩
    exact ⟨d, ⟨hdf, hxi⟩, rfl⟩

theorem allocRemainder_eq (fleet : List Device) (available required : List String) :
    allocRemainder fleet available required =
      (fleet.map Device.id).filter
        (fun x => decide (x ∈ available) && !(decide (x ∈ required))) := by
  unfold allocRemainder Devices.GetIDs Devices.Difference Devices.Subset
  rw [List.filter_filter]
  have hcongr : fleet.filter
        (fun d => decide (d.id ∉ (List.filter (fun d => decide (d.id ∈ required)) fleet).map Device.id) &&
          decide (d.id ∈ available)) =
      fleet.filter (fun d => decide (d.id ∈ available) && !(decide (d.id ∈ required))) := by
    apply List.filter_congr
    intro d hd
    have hm : d.id ∈ (List.filter (fun d => decide (d.id ∈ required)) fleet).map Device.id ↔
        d.id ∈ required := by
      have := mem_Subset_ids fleet required d.id
      unfold Devices.Subset at this
      rw [this]
      simp only [List.mem_map]
      exact ⟨fun h => h.1, fun h => ⟨h, d, hd, rfl⟩⟩
    by_cases h1 : d.id ∈ available <;> by_cases h2 : d.id ∈ required <;>
      simp [h1, h2, hm]
  rw [hcongr, map_filter_comp (f := Device.id)
    (p := fun x => decide (x ∈ available) && !(decide (x ∈ required)))]

theorem allocRemainder_nodup (fleet : List Device) (available required : List String)
    (hfleet : (fleet.map Device.id).Nodup) :
    (allocRemainder fleet available required).Nodup := by
  rw [allocRemainder_eq]
  exact hfleet.filter _

theorem mem_allocRemainder (fleet : List Device) (available required : List String)
    (x : String) :
    x ∈ allocRemainder fleet available required ↔
      x ∈ fleet.map Device.id ∧ x ∈ available ∧ x ∉ required := by
  rw [allocRemainder_eq]
  simp [List.mem_filter, and_assoc]

theorem allocCandidates_nodup (fleet : List Device) (available required : List String)
    (hfleet : (fleet.map Device.id).Nodup) (hreqnd : required.Nodup) :
    (allocCandidates fleet available required).Nodup := by
  unfold allocCandidates
  rw [List.nodup_append]
  refine ⟨hreqnd, allocRemainder_nodup fleet available required hfleet, ?_⟩
  intro x hx hx'
  exact ((mem_allocRemainder fleet available required x).mp hx').2.2 hx

theorem allocRemainder_length (fleet : List Device) (available required : List String)
    (hfleet : (fleet.map Device.id).Nodup) (havailnd : available.Nodup)
    (havail : ∀ a ∈ available, a ∈ fleet.map Device.id) :
    (allocRemainder fleet available required).length =
      (available.filter (fun y => !(decide (y ∈ required)))).length := by
  rw [allocRemainder_eq]
  have hcongr : (fleet.map Device.id).filter
        (fun x => decide (x ∈ available) && !(decide (x ∈ required))) =
      (fleet.map Device.id).filter
        (fun x => decide (x ∈ available.filter (fun y => !(decide (y ∈ required))))) := by
    apply List.filter_congr
    intro x _
    by_cases h1 : x ∈ available <;> by_cases h2 : x ∈ required <;>
      simp [h1, h2, List.mem_filter]
  rw [hcongr]
  apply length_filter_mem _ _ hfleet (havailnd.filter _)
  intro x hx
  exact havail x (List.mem_of_mem_filter hx)

theorem allocCandidates_length (fleet : List Device) (available required : List String)
    (hfleet : (fleet.map Device.id).Nodup) (havailnd : available.Nodup)
    (hreqnd : required.Nodup) (hsub : ∀ r ∈ required, r ∈ available)
    (havail : ∀ a ∈ available, a ∈ fleet.map Device.id) :
    (allocCandidates fleet available required).length = available.length := by
  unfold allocCandidates
  rw [List.length_append,
      allocRemainder_length fleet available required hfleet havailnd havail]
  have hsplit := length_filter_split (fun y => decide (y ∈ required)) available
  have hinreq : (available.filter (fun y => decide (y ∈ required))).length =
      required.length :=
    length_filter_mem available required havailnd hreqnd hsub
  omega

/-- C2 (amended): under the catalog invariant (unique device ids), with
duplicate-free `available` and `required`, `required ⊆ available` (as id
sets), every `available` id present in the current DeviceSet,
`len(required) ≤ size` and `size ≤ len(available)`, the fallback `alloc`
succeeds, and the returned list has length exactly `size`, carries `required`
in caller order as a prefix, contains every required id, and has no duplicate
ids. -/
theorem C2_fallback_postconditions (fleet : List Device) (available required : List String)
    (size : Nat)
    (hfleet : (fleet.map Device.id).Nodup)
    (havailnd : available.Nodup) (hreqnd : required.Nodup)
    (hsub : ∀ r ∈ required, r ∈ available)
    (havail : ∀ a ∈ available, a ∈ fleet.map Device.id)
    (hreqsize : required.length ≤ size) (hsize : size ≤ available.length) :
    ∃ out, alloc fleet available required size = Except.ok out
      ∧ out.length = size
      ∧ out.take required.length = required
      ∧ (∀ r ∈ required, r ∈ out)
      ∧ out.Nodup := by
  have hlen := allocCandidates_length fleet available required hfleet havailnd hreqnd hsub havail
  have hnotlt : ¬ ((allocCandidates fleet available required).length < size) := by omega
  refine ⟨(allocCandidates fleet available required).take size, ?_, ?_, ?_, ?_, ?_⟩
  · unfold alloc
    rw [if_neg hnotlt]
  · rw [List.length_take]
    omega
  · rw [List.take_take, min_eq_left hreqsize]
    unfold allocCandidates
    exact List.take_left required (allocRemainder fleet available required)
  · intro r hr
    have hpref : ((allocCandidates fleet available required).take size).take required.length
        = required := by
      rw [List.take_take, min_eq_left hreqsize]
      unfold allocCandidates
      exact List.take_left required (allocRemainder fleet available required)
    rw [← hpref] at hr
    exact List.take_subset _ _ hr
  · exact List.Nodup.sublist (List.take_sublist _ _)
      (allocCandidates_nodup fleet available required hfleet hreqnd)

/-- C2 (counterexample): the claim as stated fails.  With an empty catalog
snapshot, `available = ["A"]`, `required = []` and `size = 1`, all of the
claim's hypotheses hold (duplicate-free lists, `required ⊆ available`,
`size ≤ len(available)`), yet `alloc` fails: the id `"A"` is not in the
current DeviceSet, so the candidate list is empty. -/
theorem C2_counterexample :
    (["A"] : List String).Nodup ∧ (∀ r ∈ ([] : List String), r ∈ ["A"]) ∧ 1 ≤ 1 ∧
    alloc [] ["A"] [] 1 = Except.error "not enough available devices to satisfy allocation" :=
  ⟨by decide, by simp, le_refl 1, rfl⟩

/-- C2 (witness): the amended theorem applied to a two-device catalog. -/
theorem C2_witness :
    ((([⟨"A", false⟩, ⟨"B", false⟩] : List Device).map Device.id).Nodup) ∧
    (∃ out, alloc [⟨"A", false⟩, ⟨"B", false⟩] ["A", "B"] ["B"] 2 = Except.ok out
      ∧ out.length = 2
      ∧ out.take (["B"] : List String).length = ["B"]
      ∧ (∀ r ∈ (["B"] : List String), r ∈ out)
      ∧ out.Nodup) :=
  ⟨by decide,
   C2_fallback_postconditions [⟨"A", false⟩, ⟨"B", false⟩] ["A", "B"] ["B"] 2
     (by decide) (by decide) (by decide) (by decide) (by decide) (by decide) (by decide)⟩

/-- C3 (amended): for every input, the fallback `alloc` returns the
insufficient-devices error exactly when the candidate list
`required ++ (available − required)` (with the remainder intersected with the
current DeviceSet) is shorter than `size`, and on failure no id list is
produced; and — under the catalog invariant (unique device ids) and for
duplicate-free `required` — it fails whenever `size > |available ∪ required|`
counted as a set of ids. -/
theorem C3_failure_condition (fleet : List Device) (available required : List String)
    (size : Nat) :
    ((∃ msg, alloc fleet available required size = Except.error msg) ↔
      (allocCandidates fleet available required).length < size)
    ∧ (∀ msg, alloc fleet available required size = Except.error msg →
        ∀ out, alloc fleet available required size ≠ Except.ok out)
    ∧ ((fleet.map Device.id).Nodup → required.Nodup →
        idUnionCard available required < size →
        alloc fleet available required size =
          Except.error "not enough available devices to satisfy allocation") := by
  refine ⟨?_, ?_, ?_⟩
  · unfold alloc
    by_cases h : (allocCandidates fleet available required).length < size
    · simp [h]
    · simp [h]
  · intro msg hmsg out hout
    rw [hmsg] at hout
    cases hout
  · intro hfleet hreqnd hcard
    have hle : (allocCandidates fleet available required).length ≤
        idUnionCard available required := by
      have hnd := allocCandidates_nodup fleet available required hfleet hreqnd
      have hsub : allocCandidates fleet available required ⊆
          (available ++ required).dedup := by
        intro x hx
        rw [List.mem_dedup, List.mem_append]
        rcases List.mem_append.mp hx with h | h
        · exact Or.inr h
        · exact Or.inl ((mem_allocRemainder fleet available required x).mp h).2.1
      exact (hnd.subperm hsub).length_le
    unfold alloc
    rw [if_pos (by omega)]

/-- C3 (counterexample): the "fails whenever `size > len(available ∪
required)`" part does not hold for every input: with the duplicated required
list `["A", "A"]`, empty `available`, empty catalog and `size = 2`, the id
union has one element (< size), yet `alloc` succeeds and returns the
duplicate. -/
theorem C3_counterexample :
    idUnionCard [] ["A", "A"] = 1 ∧ 1 < 2 ∧
    alloc [] [] ["A", "A"] 2 = Except.ok ["A", "A"] :=
  ⟨rfl, by omega, rfl⟩

/-- C3 (witness): the union-cardinality clause of the amended theorem applied
to a concrete failing input. -/
theorem C3_witness :
    idUnionCard ["A"] ["B"] < 3 ∧
    alloc [] ["A"] ["B"] 3 =
      Except.error "not enough available devices to satisfy allocation" :=
  ⟨by decide,
   (C3_failure_condition [] ["A"] ["B"] 3).2.2 (by decide) (by decide) (by decide)⟩

/-- C10: in the fallback `alloc` the `required` list is prepended to the
candidate list unfiltered: every required id is a candidate and the
`required` list is literally the candidate prefix, even for ids absent from
`available` or from the current DeviceSet; only the remainder is intersected
with the DeviceSet; on success the result starts with `required` truncated at
`size`, and it can contain ids outside `available` (witnessed by `"X"` with
empty catalog and empty `available`). -/
theorem C10_required_unfiltered (fleet : List Device) (available required : List String)
    (size : Nat) :
    (∀ r ∈ required, r ∈ allocCandidates fleet available required)
    ∧ (allocCandidates fleet available required).take required.length = required
    ∧ (∀ x ∈ allocCandidates fleet available required, x ∉ required →
        x ∈ available ∧ x ∈ fleet.map Device.id)
    ∧ (∀ out, alloc fleet available required size = Except.ok out →
        out.take required.length = required.take size ∧
        ∀ r ∈ required.take size, r ∈ out)
    ∧ alloc [] [] ["X"] 1 = Except.ok ["X"]
    ∧ ("X" : String) ∉ ([] : List String) := by
  refine ⟨?_, ?_, ?_, ?_, rfl, by simp⟩
  · intro r hr
    exact List.mem_append.mpr (Or.inl hr)
  · exact List.take_left required (allocRemainder fleet available required)
  · intro x hx hxr
    rcases List.mem_append.mp hx with h | h
    · exact absurd h hxr
    · have := (mem_allocRemainder fleet available required x).mp h
      exact ⟨this.2.1, this.1⟩
  · intro out hout
    have hok : out = (allocCandidates fleet available required).take size := by
      unfold alloc at hout
      by_cases h : (allocCandidates fleet available required).length < size
      · rw [if_pos h] at hout; cases hout
      · rw [if_neg h] at hout; cases hout; rfl
    have htake : out.take required.length = required.take size := by
      rw [hok, List.take_take]
      rcases le_total size required.length with hls | hls
      · rw [min_eq_right hls]
        unfold allocCandidates
        rw [List.take_append_of_le_length hls]
      · rw [min_eq_left hls]
        unfold allocCandidates
        rw [List.take_left required (allocRemainder fleet available required),
            List.take_of_length_le hls]
    refine ⟨htake, ?_⟩
    intro r hr
    rw [← htake] at hr
    exact List.take_subset _ _ hr

/-- C1: `getPreferredAllocation` uses the topology-aware policy if and only
if the current DeviceSet contains no partition (MIG) device and no element of
`available` carries a qualifier; in every other case it uses the fallback
policy — for every catalog snapshot and every `(available, required, size)`
input. -/
theorem C1_policy_selection (fleet : List Device) (available : List AnnotatedID)
    (required : List String) (size : Nat) :
    (getPreferredAllocationPolicy fleet available required size = AllocPolicy.topologyAware ↔
      (∀ d ∈ fleet, d.isMig = false) ∧ (∀ a ∈ available, a.qualifier = ""))
    ∧ (getPreferredAllocationPolicy fleet available required size = AllocPolicy.fallback ↔
      ¬ ((∀ d ∈ fleet, d.isMig = false) ∧ (∀ a ∈ available, a.qualifier = ""))) := by
  have hcond : (!(Devices.ContainsMigDevices fleet) && !(anyHasQualifier available)) = true ↔
      (∀ d ∈ fleet, d.isMig = false) ∧ (∀ a ∈ available, a.qualifier = "") := by
    simp [Devices.ContainsMigDevices, anyHasQualifier, AnnotatedID.hasQualifier,
          List.any_eq_true]
  by_cases h : (!(Devices.ContainsMigDevices fleet) && !(anyHasQualifier available)) = true
  · constructor
    · simp only [getPreferredAllocationPolicy, h, if_true]
      exact ⟨fun _ => hcond.mp h, fun _ => trivial⟩
    · simp only [getPreferredAllocationPolicy, h, if_true]
      constructor
      · intro hfb; cases hfb
      · intro hn; exact absurd (hcond.mp h) hn
  · rw [Bool.not_eq_true] at h
    constructor
    · simp only [getPreferredAllocationPolicy, h, Bool.false_eq_true, if_false]
      constructor
      · intro hfb; cases hfb
      · intro hA
        have : (!(Devices.ContainsMigDevices fleet) && !(anyHasQualifier available)) = true :=
          hcond.mpr hA
        rw [h] at this; cases this
    · simp only [getPreferredAllocationPolicy, h, Bool.false_eq_true, if_false]
      refine ⟨fun _ => ?_, fun _ => trivial⟩
      intro hA
      have : (!(Devices.ContainsMigDevices fleet) && !(anyHasQualifier available)) = true :=
        hcond.mpr hA
      rw [h] at this; cases this

/-- C4: for every partition with GPU-instance slice count `g`,
compute-instance slice count `c` and memory size `memMB` (`uint64`, here: no
wrap-around in `memMB + 1023`), the profile string of `getMigProfile` is
`"{g}g.{memGB}gb"` when `g = c` and `"{c}c.{g}g.{memGB}gb"` otherwise, where
`memGB` is exactly the ceiling of `memMB / 1024` (characterised by the two
inequalities); including the claim's three examples. -/
theorem C4_profile_naming (g c memMB : Nat) (h : memMB + 1023 < 2 ^ 64) :
    (∃ memGB, memMB ≤ 1024 * memGB ∧ 1024 * memGB < memMB + 1024 ∧
      getMigProfile g c memMB =
        if g = c then Nat.repr g ++ "g." ++ Nat.repr memGB ++ "gb"
        else Nat.repr c ++ "c." ++ Nat.repr g ++ "g." ++ Nat.repr memGB ++ "gb")
    ∧ getMigProfile 1 1 10240 = "1g.10gb"
    ∧ getMigProfile 2 1 20480 = "1c.2g.20gb"
    ∧ getMigProfile 1 1 10241 = "1g.11gb" := by
  refine ⟨⟨(memMB + 1023) / 1024, by omega, by omega, ?_⟩, rfl, rfl, rfl⟩
  have hm : (memMB + 1024 - 1) % 2 ^ 64 = memMB + 1023 := by omega
  simp only [getMigProfile, hm]

/-- C4 (witness): the general theorem applied at `g = c = 1`,
`memMB = 10240`. -/
theorem C4_witness :
    10240 + 1023 < 2 ^ 64 ∧ getMigProfile 1 1 10240 = "1g.10gb" :=
  ⟨by norm_num, (C4_profile_naming 1 1 10240 (by norm_num)).2.1⟩

/-- C6 (counterexample): the claim's own example fails on the code: the code
strips only the four characters `"0000"`, not the colon, so the bus id
`"0000:3B:00.0"` becomes `":3b:00.0"`, not `"3b:00.0"`. -/
theorem C6_counterexample :
    numaBusID "0000:3B:00.0" = ":3b:00.0" ∧ ":3b:00.0" ≠ "3b:00.0" :=
  ⟨rfl, by decide⟩

/-- C6 (amended): the lookup key is the bus address with a leading literal
`"0000"` (four characters, the colon is kept) removed when present, then
ASCII lower-cased; `"0000:3B:00.0"` maps to `":3b:00.0"`, the 8-hex-digit
NVML form `"00000000:3B:00.0"` maps to `"0000:3b:00.0"`, and the
PCI-topology file path is built from exactly this key. -/
theorem C6_bus_id_normalization :
    (∀ t : String, numaBusID (String.mk ("0000".data ++ t.data)) = goToLower t)
    ∧ (∀ s : String, listStartsWith s.data "0000".data = false → numaBusID s = goToLower s)
    ∧ numaBusID "0000:3B:00.0" = ":3b:00.0"
    ∧ numaBusID "00000000:3B:00.0" = "0000:3b:00.0"
    ∧ (∀ s : String, numaNodePath s = "/sys/bus/pci/devices/" ++ numaBusID s ++ "/numa_node") := by
  refine ⟨?_, ?_, rfl, rfl, fun s => rfl⟩
  · intro t
    have hstart : listStartsWith ("0000".data ++ t.data) "0000".data = true := by
      simp [show "0000".data = ['0', '0', '0', '0'] from rfl, listStartsWith]
    unfold numaBusID goTrimLeading
    simp only [hstart, if_true]
    have hdrop : (("0000".data ++ t.data).drop "0000".data.length) = t.data :=
      List.drop_left "0000".data t.data
    simp only [show (String.mk ("0000".data ++ t.data)).data = "0000".data ++ t.data from rfl,
               hdrop]
  · intro s hs
    unfold numaBusID goTrimLeading
    simp [hs]

/-- C6 (witness): the general stripped-prefix rule applied to the claim's
bus id. -/
theorem C6_witness :
    numaBusID (String.mk ("0000".data ++ ":3B:00.0".data)) = goToLower ":3B:00.0" :=
  C6_bus_id_normalization.1 ":3B:00.0"

/-- C7 (counterexample): an I/O failure on a present but unreadable file is
not a hard error in the code: `getNumaNode` answers "NUMA affinity absent"
(`ok none`) for every failing read, exactly as for a missing file. -/
theorem C7_counterexample :
    getNumaNode ReadResult.unreadable = Except.ok none ∧
    ∀ msg, getNumaNode ReadResult.unreadable ≠ Except.error msg := by
  refine ⟨rfl, ?_⟩
  intro msg h
  cases h

/-- C7 (amended): a missing file and a failing read on a present file both
yield "NUMA affinity absent" with no error; a parse failure of successfully
read content yields a hard error; a parsed negative value yields absent with
no error; a parsed non-negative value is returned.  Absent and error are
mutually exclusive outcomes of the `Except` result. -/
theorem C7_numa_outcomes :
    getNumaNode ReadResult.missing = Except.ok none
    ∧ getNumaNode ReadResult.unreadable = Except.ok none
    ∧ (∀ b, goParseInt8 (goTrimSpace b) = none →
        getNumaNode (ReadResult.content b) = Except.error "eror parsing value for NUMA node")
    ∧ (∀ b v, goParseInt8 (goTrimSpace b) = some v → v < 0 →
        getNumaNode (ReadResult.content b) = Except.ok none)
    ∧ (∀ b v, goParseInt8 (goTrimSpace b) = some v → 0 ≤ v →
        getNumaNode (ReadResult.content b) = Except.ok (some v)) := by
  refine ⟨rfl, rfl, ?_, ?_, ?_⟩
  · intro b h
    simp [getNumaNode, h]
  · intro b v h hv
    simp [getNumaNode, h, hv]
  · intro b v h hv
    simp [getNumaNode, h, not_lt.mpr hv]

/-- C7 (witness): the classification applied to the readable content
`" 1\n"`. -/
theorem C7_witness :
    goParseInt8 (goTrimSpace " 1\n") = some 1 ∧
    getNumaNode (ReadResult.content " 1\n") = Except.ok (some 1) :=
  ⟨rfl, C7_numa_outcomes.2.2.2.2 " 1\n" 1 rfl (by norm_num)⟩

/-- C8 (counterexample): the "populated if and only if the handle is a
partition handle" direction fails at the NVML absent-sentinel: for a MIG
handle whose event data carries `GpuInstanceId = 0xFFFFFFFF`, the decoded
field is absent even though the handle is a partition handle (while the
compute-instance id 0 of the same event is populated). -/
theorem C8_counterexample :
    nvmlWaitForEvent (Except.ok
        { device := { getUUID := Except.ok "GPU-x", isMigDeviceHandle := Except.ok true },
          gpuInstanceId := 0xFFFFFFFF, computeInstanceId := 0,
          eventType := 0, eventData := 0 })
      = Except.ok { UUID := some "GPU-x", GpuInstanceID := none,
                    ComputeInstanceID := some 0, Etype := 0, Edata := 0 } := rfl

/-- C8 (amended): for every successful `Wait`, a partition sub-identifier is
populated iff the reporting handle is a partition (MIG) handle and the
reported `uint32` value is not the `0xFFFFFFFF` absent-sentinel; for a
non-partition handle both fields are always absent (`none`), never a zero or
sentinel value — a populated field always carries the genuine reported
value. -/
theorem C8_event_sub_identifiers (data : RawEventData) (uuid : String) (b : Bool)
    (hu : data.device.getUUID = Except.ok uuid)
    (hm : data.device.isMigDeviceHandle = Except.ok b) :
    ∃ ev, nvmlWaitForEvent (Except.ok data) = Except.ok ev
      ∧ ev.UUID = some uuid
      ∧ (ev.GpuInstanceID.isSome = true ↔ (b = true ∧ data.gpuInstanceId ≠ 0xFFFFFFFF))
      ∧ (ev.ComputeInstanceID.isSome = true ↔ (b = true ∧ data.computeInstanceId ≠ 0xFFFFFFFF))
      ∧ (b = false → ev.GpuInstanceID = none ∧ ev.ComputeInstanceID = none)
      ∧ (∀ v, ev.GpuInstanceID = some v → v = data.gpuInstanceId)
      ∧ (∀ v, ev.ComputeInstanceID = some v → v = data.computeInstanceId) := by
  have hrun : nvmlWaitForEvent (Except.ok data) =
      Except.ok { UUID := some uuid,
                  GpuInstanceID := uintPtr (if b then data.gpuInstanceId else 0xFFFFFFFF),
                  ComputeInstanceID := uintPtr (if b then data.computeInstanceId else 0xFFFFFFFF),
                  Etype := data.eventType, Edata := data.eventData } := by
    simp [nvmlWaitForEvent, hu, hm]
  refine ⟨_, hrun, rfl, ?_, ?_, ?_, ?_, ?_⟩
  · cases b <;> by_cases hg : data.gpuInstanceId = 0xFFFFFFFF <;> simp [uintPtr, hg]
  · cases b <;> by_cases hc : data.computeInstanceId = 0xFFFFFFFF <;> simp [uintPtr, hc]
  · intro hb
    subst hb
    simp [uintPtr]
  · intro v hv
    cases b with
    | false => simp [uintPtr] at hv
    | true =>
        by_cases hg : data.gpuInstanceId = 0xFFFFFFFF <;> simp [uintPtr, hg] at hv
        exact hv.symm
  · intro v hv
    cases b with
    | false => simp [uintPtr] at hv
    | true =>
        by_cases hc : data.computeInstanceId = 0xFFFFFFFF <;> simp [uintPtr, hc] at hv
        exact hv.symm

/-- C8 (witness): the amended theorem applied to a non-MIG handle reporting
raw ids 5 and 7: both decoded fields are absent. -/
theorem C8_witness :
    ∃ ev, nvmlWaitForEvent (Except.ok
        { device := { getUUID := Except.ok "GPU-y", isMigDeviceHandle := Except.ok false },
          gpuInstanceId := 5, computeInstanceId := 7,
          eventType := 0, eventData := 0 })
      = Except.ok ev
      ∧ ev.UUID = some "GPU-y"
      ∧ (ev.GpuInstanceID.isSome = true ↔ (false = true ∧ (5 : Nat) ≠ 0xFFFFFFFF))
      ∧ (ev.ComputeInstanceID.isSome = true ↔ (false = true ∧ (7 : Nat) ≠ 0xFFFFFFFF))
      ∧ (false = false → ev.GpuInstanceID = none ∧ ev.ComputeInstanceID = none)
      ∧ (∀ v, ev.GpuInstanceID = some v → v = 5)
      ∧ (∀ v, ev.ComputeInstanceID = some v → v = 7) :=
  C8_event_sub_identifiers
    { device := { getUUID := Except.ok "GPU-y", isMigDeviceHandle := Except.ok false },
      gpuInstanceId := 5, computeInstanceId := 7, eventType := 0, eventData := 0 }
    "GPU-y" false rfl rfl

theorem getMigProfile_self (g memMB : Nat) :
    getMigProfile g g memMB =
      Nat.repr g ++ "g." ++ Nat.repr (((memMB + 1024 - 1) % 2 ^ 64) / 1024) ++ "gb" := by
  simp [getMigProfile]

theorem walkGPUProfiles_spec :
    ∀ (qs : List GIProfileResult) (visited ps vis : List String),
      walkGPUProfiles qs visited = Except.ok (ps, vis) →
      ps.Nodup ∧ (∀ p ∈ ps, p ∉ visited)
      ∧ (∀ p, p ∈ vis ↔ p ∈ ps ∨ p ∈ visited)
      ∧ (∀ p ∈ ps, ∃ g memMB, GIProfileResult.info g memMB ∈ qs ∧ p = getMigProfile g g memMB) := by
  intro qs
  induction qs with
  | nil =>
      intro visited ps vis h
      simp only [walkGPUProfiles, Except.ok.injEq, Prod.mk.injEq] at h
      obtain ⟨h1, h2⟩ := h
      subst h1
      subst h2
      simp
  | cons q rest ih =>
      intro visited ps vis h
      cases q with
      | notSupported =>
          simp only [walkGPUProfiles] at h
          obtain ⟨h1, h2, h3, h4⟩ := ih visited ps vis h
          refine ⟨h1, h2, h3, fun p hp => ?_⟩
          obtain ⟨g, m, hin, hs⟩ := h4 p hp
          exact ⟨g, m, List.mem_cons_of_mem _ hin, hs⟩
      | invalidArgument =>
          simp only [walkGPUProfiles] at h
          obtain ⟨h1, h2, h3, h4⟩ := ih visited ps vis h
          refine ⟨h1, h2, h3, fun p hp => ?_⟩
          obtain ⟨g, m, hin, hs⟩ := h4 p hp
          exact ⟨g, m, List.mem_cons_of_mem _ hin, hs⟩
      | otherError =>
          simp only [walkGPUProfiles] at h
          simp at h
      | info g memMB =>
          simp only [walkGPUProfiles] at h
          by_cases hv : (Nat.repr g ++ "g." ++
              Nat.repr (((memMB + 1024 - 1) % 2 ^ 64) / 1024) ++ "gb") ∈ visited
          · rw [if_pos hv] at h
            obtain ⟨h1, h2, h3, h4⟩ := ih visited ps vis h
            refine ⟨h1, h2, h3, fun p hp => ?_⟩
            obtain ⟨g', m', hin, hs⟩ := h4 p hp
            exact ⟨g', m', List.mem_cons_of_mem _ hin, hs⟩
          · rw [if_neg hv] at h
            cases heq : walkGPUProfiles rest
                ((Nat.repr g ++ "g." ++
                  Nat.repr (((memMB + 1024 - 1) % 2 ^ 64) / 1024) ++ "gb") :: visited) with
            | error e => rw [heq] at h; cases h
            | ok pr =>
                obtain ⟨ps', vis'⟩ := pr
                rw [heq] at h
                cases h
                obtain ⟨h1, h2, h3, h4⟩ := ih _ _ _ heq
                refine ⟨?_, ?_, ?_, ?_⟩
                · rw [List.nodup_cons]
                  refine ⟨fun hmem => ?_, h1⟩
                  have := h2 _ hmem
                  simp at this
                · intro p hp
                  rcases List.mem_cons.mp hp with hrfl | hp'
                  · exact hrfl ▸ hv
                  · intro hmem
                    exact (h2 p hp') (List.mem_cons_of_mem _ hmem)
                · intro p
                  rw [h3 p]
                  simp [List.mem_cons]
                  tauto
                · intro p hp
                  rcases List.mem_cons.mp hp with hrfl | hp'
                  · exact ⟨g, memMB, List.mem_cons_self _ _,
                      hrfl.trans (getMigProfile_self g memMB).symm⟩
                  · obtain ⟨g', m', hin, hs⟩ := h4 p hp'
                    exact ⟨g', m', List.mem_cons_of_mem _ hin, hs⟩

theorem walkMigProfilesAux_spec :
    ∀ (gpus : List GPUProfiles) (visited ps : List String),
      walkMigProfilesAux gpus visited = Except.ok ps →
      ps.Nodup ∧ (∀ p ∈ ps, p ∉ visited)
      ∧ (∀ p ∈ ps, ∃ g memMB gpu, gpu ∈ gpus ∧ gpu.migCapable = true ∧
          GIProfileResult.info g memMB ∈ gpu.results ∧ p = getMigProfile g g memMB) := by
  intro gpus
  induction gpus with
  | nil =>
      intro visited ps h
      simp only [walkMigProfilesAux, Except.ok.injEq] at h
      subst h
      simp
  | cons gpu rest ih =>
      intro visited ps h
      simp only [walkMigProfilesAux] at h
      by_cases hc : gpu.migCapable
      · rw [if_pos hc] at h
        cases heq : walkGPUProfiles gpu.results visited with
        | error e => rw [heq] at h; cases h
        | ok pr =>
            obtain ⟨ps1, vis1⟩ := pr
            rw [heq] at h
            dsimp only at h
            cases heq2 : walkMigProfilesAux rest vis1 with
            | error e => rw [heq2] at h; cases h
            | ok ps2 =>
                rw [heq2] at h
                cases h
                obtain ⟨g1, g2, g3, g4⟩ := walkGPUProfiles_spec gpu.results visited ps1 vis1 heq
                obtain ⟨i1, i2, i3⟩ := ih vis1 ps2 heq2
                refine ⟨?_, ?_, ?_⟩
                · rw [List.nodup_append]
                  refine ⟨g1, i1, ?_⟩
                  intro x hx hx'
                  exact (i2 x hx') ((g3 x).mpr (Or.inl hx))
                · intro p hp
                  rcases List.mem_append.mp hp with hp1 | hp2
                  · exact g2 p hp1
                  · intro hmem
                    exact (i2 p hp2) ((g3 p).mpr (Or.inr hmem))
                · intro p hp
                  rcases List.mem_append.mp hp with hp1 | hp2
                  · obtain ⟨g, m, hin, hs⟩ := g4 p hp1
                    exact ⟨g, m, gpu, List.mem_cons_self _ _, hc, hin, hs⟩
                  · obtain ⟨g, m, gp, hgp, hcap, hin, hs⟩ := i3 p hp2
                    exact ⟨g, m, gp, List.mem_cons_of_mem _ hgp, hcap, hin, hs⟩
      · rw [if_neg hc] at h
        obtain ⟨i1, i2, i3⟩ := ih visited ps h
        refine ⟨i1, i2, ?_⟩
        intro p hp
        obtain ⟨g, m, gp, hgp, hcap, hin, hs⟩ := i3 p hp
        exact ⟨g, m, gp, List.mem_cons_of_mem _ hgp, hcap, hin, hs⟩

/-- C5: the profile-string formula is the same in both places: every profile
string the fleet-wide walk `walkMigProfiles` hands to its callback is exactly
the string `getMigProfile` would produce for a specific instantiated
partition with the same GPU-instance slice count, an equal compute-instance
slice count and the same memory size; and the callback is invoked at most
once per distinct profile string (the emitted list has no duplicates). -/
theorem C5_walk_matches_getMigProfile (gpus : List GPUProfiles) (ps : List String)
    (h : walkMigProfiles gpus = Except.ok ps) :
    ps.Nodup ∧ ∀ p ∈ ps, ∃ g memMB gpu, gpu ∈ gpus ∧ gpu.migCapable = true ∧
      GIProfileResult.info g memMB ∈ gpu.results ∧ p = getMigProfile g g memMB := by
  obtain ⟨h1, _, h3⟩ := walkMigProfilesAux_spec gpus [] ps h
  exact ⟨h1, h3⟩

/-- C5 (witness): a MIG-capable GPU reporting the same profile twice leads to
one callback invocation, whose string agrees with `getMigProfile`. -/
theorem C5_witness :
    walkMigProfiles [⟨true, [GIProfileResult.info 1 1, GIProfileResult.info 1 1]⟩]
        = Except.ok ["1g.1gb"]
    ∧ ((["1g.1gb"] : List String).Nodup ∧ ∀ p ∈ (["1g.1gb"] : List String),
        ∃ g memMB gpu,
          gpu ∈ [(⟨true, [GIProfileResult.info 1 1, GIProfileResult.info 1 1]⟩ : GPUProfiles)]
          ∧ gpu.migCapable = true ∧ GIProfileResult.info g memMB ∈ gpu.results
          ∧ p = getMigProfile g g memMB) :=
  ⟨rfl, C5_walk_matches_getMigProfile
    [⟨true, [GIProfileResult.info 1 1, GIProfileResult.info 1 1]⟩] ["1g.1gb"] rfl⟩

theorem startPluginsLoop_actions :
    ∀ (ps : List PluginSpec) (a : PluginAction), a ∈ (startPluginsLoop ps).2 →
      ∃ p, a = PluginAction.startP p ∧ p ∈ ps ∧ p.devices ≠ 0 := by
  intro ps
  induction ps with
  | nil => intro a ha; simp [startPluginsLoop] at ha
  | cons p rest ih =>
      intro a ha
      by_cases h0 : p.devices = 0
      · simp only [startPluginsLoop, h0, if_true] at ha
        obtain ⟨q, hq1, hq2, hq3⟩ := ih a ha
        exact ⟨q, hq1, List.mem_cons_of_mem _ hq2, hq3⟩
      · cases hs : p.startOk with
        | true =>
            simp only [startPluginsLoop, h0, if_false, hs, if_true] at ha
            rcases List.mem_cons.mp ha with hrfl | ha'
            · exact ⟨p, hrfl, List.mem_cons_self _ _, h0⟩
            · obtain ⟨q, hq1, hq2, hq3⟩ := ih a ha'
              exact ⟨q, hq1, List.mem_cons_of_mem _ hq2, hq3⟩
        | false =>
            simp [startPluginsLoop, h0, hs] at ha
            exact ⟨p, ha, List.mem_cons_self _ _, h0⟩

/-- C9: the supervisor's failed-start cycle.  A `Start` failure in a cycle
arms the fixed 30-second backoff timer and records every handle created in
the cycle; when the timer fires the `restart:` label is re-entered, and the
re-entered cycle stops every handle of the previous (possibly failed) cycle
before any new `Start` call, so no two sets of started endpoints overlap;
a timer event does nothing while no timer is armed; and endpoints with zero
devices are skipped, never started. -/
theorem C9_supervisor_restart (s : SupervisorState) (ps qs : List PluginSpec) :
    ((startPluginsLoop ps).1 = true →
        (restartCycle s ps).1.restartTimeout = some backoffSeconds ∧ backoffSeconds = 30)
    ∧ (restartCycle s ps).1.plugins = ps
    ∧ (restartCycle s ps).1.restarting = true
    ∧ (s.restarting = true →
        (restartCycle s ps).2 = s.plugins.map PluginAction.stopP ++ (startPluginsLoop ps).2)
    ∧ (s.restartTimeout.isSome = true → s.restarting = true →
        (supervisorStep s (SupervisorEvent.timerFire qs)).2 =
          s.plugins.map PluginAction.stopP ++ (startPluginsLoop qs).2)
    ∧ (s.restartTimeout = none →
        supervisorStep s (SupervisorEvent.timerFire qs) = (s, []))
    ∧ ((startPluginsLoop ps).1 = true →
        (supervisorStep (restartCycle s ps).1 (SupervisorEvent.timerFire qs)).2 =
          ps.map PluginAction.stopP ++ (startPluginsLoop qs).2)
    ∧ (∀ p ∈ ps, p.devices = 0 → PluginAction.startP p ∉ (startPluginsLoop ps).2) := by
  refine ⟨?_, rfl, rfl, ?_, ?_, ?_, ?_, ?_⟩
  · intro hfail
    exact ⟨by simp [restartCycle, hfail], rfl⟩
  · intro hrest
    simp [restartCycle, hrest]
  · intro hsome hrest
    simp [supervisorStep, hsome, restartCycle, hrest]
  · intro hnone
    simp [supervisorStep, hnone]
  · intro hfail
    simp [supervisorStep, restartCycle, hfail]
  · intro p hp h0 hmem
    obtain ⟨q, hq1, _, hq3⟩ := startPluginsLoop_actions ps _ hmem
    cases hq1
    exact hq3 h0

/-- C9 (witness): a cycle whose second endpoint fails to start arms the
timer; the fired timer re-enters the cycle, which stops both handles of the
failed cycle before starting the new endpoint. -/
theorem C9_witness :
    (startPluginsLoop [⟨0, true⟩, ⟨2, false⟩]).1 = true ∧
    (supervisorStep (restartCycle ⟨true, some 30, [⟨1, false⟩]⟩ [⟨0, true⟩, ⟨2, false⟩]).1
        (SupervisorEvent.timerFire [⟨1, true⟩])).2 =
      ([⟨0, true⟩, ⟨2, false⟩] : List PluginSpec).map PluginAction.stopP ++
        (startPluginsLoop [⟨1, true⟩]).2 :=
  ⟨rfl,
   (C9_supervisor_restart ⟨true, some 30, [⟨1, false⟩]⟩ [⟨0, true⟩, ⟨2, false⟩]
      [⟨1, true⟩]).2.2.2.2.2.2.1 rfl⟩

/-- C10 (witness): the success conjunct applied to a concrete request whose
required id `"R"` is outside both `available` and the DeviceSet. -/
theorem C10_witness :
    (["R", "A"] : List String).take (["R"] : List String).length =
      (["R"] : List String).take 2 ∧
    ∀ r ∈ (["R"] : List String).take 2, r ∈ (["R", "A"] : List String) :=
  (C10_required_unfiltered [⟨"A", false⟩] ["A"] ["R"] 2).2.2.2.1 ["R", "A"] rfl
